import Mathlib

/-!
Verification of the call-executor and test-client layers of the repository.

The embedding follows `src/client/api/src/call_executor.rs` (the
`CallExecutor` trait and its default `prove_at_state` method) and
`src/test/utils/runtime/client/src/lib.rs` (the test-client builder
extension and the light-client fetcher).  Parts of the execution
semantics whose implementation lives outside the two source files
(strategy resolution, contextual calls, the proof recorder) are
modelled from the specification; each such definition is marked
`Modelled from the spec:` in its doc comment.
-/

namespace Substrate

/-- Raw bytes (`Vec<u8>` in the source), modelled as a list of naturals. -/
abbrev Bytes := List Nat

/-- A storage key. -/
abbrev StorageKey := Bytes

/-- Errors of the state-machine layer visible through this interface.
`UnableToGenerateProof` is the variant `prove_at_state` raises on a
non-trie-backed state; `ExecutionFailed` normalises faults of either
implementation; `Backend` covers backend-reported failures. -/
inductive ExecutionError where
  | UnableToGenerateProof
  | ExecutionFailed (msg : String)
  | Backend (msg : String)
  deriving DecidableEq, Repr

/-- The blockchain-level error type (`sp_blockchain::Error`): a boxed
state-machine error or some other failure. -/
inductive BlockchainError where
  | Execution (e : ExecutionError)
  | Other (msg : String)
  deriving DecidableEq, Repr

/-- A storage proof: the set of raw trie nodes collected while executing a
call, as returned by the proving entry points. -/
abbrev StorageProof := List Bytes

/-- An overlay of pending writes layered over a state view: each entry maps
a key to `some value` (a pending write) or `none` (a pending deletion).
Modelled from the spec: the body of `OverlayedChanges` is outside the two
source files; the spec describes it as a call-scoped mapping of pending
writes. -/
abbrev OverlayMap := List (StorageKey × Option Bytes)

/-- The default implementation of `CallExecutor::prove_at_state`
(src/client/api/src/call_executor.rs, lines 86-99): ask the state for a
trie-backed view; if there is none, fail with the boxed state-machine
error `UnableToGenerateProof`; otherwise delegate to
`prove_at_trie_state` on the extracted trie backend with the same
overlay, method and call data.  The trait method `prove_at_trie_state`
is abstract in the source, so it is a function parameter here. -/
def prove_at_state {S TrieState : Type}
    (as_trie_backend : S → Option TrieState)
    (prove_at_trie_state : TrieState → OverlayMap → String → Bytes →
      Except BlockchainError (Bytes × StorageProof))
    (state : S) (overlay : OverlayMap) (method : String) (call_data : Bytes) :
    Except BlockchainError (Bytes × StorageProof) :=
  match as_trie_backend state with
  | none =>
      Except.error (BlockchainError.Execution ExecutionError.UnableToGenerateProof)
  | some trie_state => prove_at_trie_state trie_state overlay method call_data

/-- C1: `prove_at_state` fails with exactly the error
`UnableToGenerateProof` when the state exposes no trie-backed view, and
(provided the delegate `prove_at_trie_state` never itself produces that
error) this error arises only in that case: the error branch is taken
if and only if `as_trie_backend` returns `none`. -/
theorem prove_at_state_unable_to_generate_proof_iff {S TrieState : Type}
    (as_trie_backend : S → Option TrieState)
    (patts : TrieState → OverlayMap → String → Bytes →
      Except BlockchainError (Bytes × StorageProof))
    (state : S) (overlay : OverlayMap) (method : String) (call_data : Bytes)
    (hdelegate : ∀ t ov m cd, patts t ov m cd ≠
      Except.error (BlockchainError.Execution ExecutionError.UnableToGenerateProof)) :
    prove_at_state as_trie_backend patts state overlay method call_data =
      Except.error (BlockchainError.Execution ExecutionError.UnableToGenerateProof)
      ↔ as_trie_backend state = none := by
  unfold prove_at_state
  cases h : as_trie_backend state with
  | none => simp
  | some t =>
      simp only [Option.some_ne_none, iff_false]
      exact hdelegate t overlay method call_data

/-- Witness for C1: on a state with no trie-backed view and a delegate
that always succeeds, `prove_at_state` returns the
`UnableToGenerateProof` error. -/
theorem prove_at_state_unable_to_generate_proof_iff_witness :
    prove_at_state (fun _ : Unit => (none : Option Unit))
      (fun _ _ _ _ => Except.ok ([], [])) () [] "test_method" [] =
      Except.error (BlockchainError.Execution ExecutionError.UnableToGenerateProof) :=
  (prove_at_state_unable_to_generate_proof_iff
    (fun _ : Unit => (none : Option Unit)) (fun _ _ _ _ => Except.ok ([], []))
    () [] "test_method" [] (fun _ _ _ _ h => nomatch h)).mpr rfl

/-- C2: on a trie-backed state, `prove_at_state` is a pure delegation: it
returns exactly the result of `prove_at_trie_state` on the extracted
trie backend with the same overlay, method and call data. -/
theorem prove_at_state_delegates {S TrieState : Type}
    (as_trie_backend : S → Option TrieState)
    (patts : TrieState → OverlayMap → String → Bytes →
      Except BlockchainError (Bytes × StorageProof))
    (state : S) (overlay : OverlayMap) (method : String) (call_data : Bytes)
    (t : TrieState) (h : as_trie_backend state = some t) :
    prove_at_state as_trie_backend patts state overlay method call_data =
      patts t overlay method call_data := by
  unfold prove_at_state
  rw [h]

/-- Witness for C2: a state that does expose a trie backend delegates, and
the delegate's result (here, echoing the call data) is returned as is. -/
theorem prove_at_state_delegates_witness :
    prove_at_state (fun _ : Unit => some ())
      (fun _ _ _ cd => Except.ok (cd, [])) () [] "test_method" [1, 2, 3] =
      Except.ok (([1, 2, 3] : Bytes), ([] : StorageProof)) :=
  prove_at_state_delegates (fun _ : Unit => some ())
    (fun _ _ _ cd => Except.ok (cd, [])) () [] "test_method" [1, 2, 3] () rfl

/-- The result of a contextual call: either a strongly-typed native value
or encoded bytes (`NativeOrEncoded<R>` in the source's imports). -/
inductive NativeOrEncoded (R : Type) where
  | native (r : R)
  | encoded (b : Bytes)
  deriving DecidableEq, Repr

/-- Modelled from the spec: the behaviour of one invocation of the native
implementation (the `NC: FnOnce() -> Result<R, String> + UnwindSafe`
closure of `contextual_call`).  It may return a value, return a typed
error, or trap (panic) — `trap` stands for a fault inside the
third-party native code. -/
inductive NativeOutcome (R : Type) where
  | ok (r : R)
  | err (msg : String)
  | trap
  deriving DecidableEq, Repr

/-- The outcome of running a closure as observed by the calling process:
either it returned a value, or an unwind escaped and the call aborted
uncontrolled. -/
inductive ProcessOutcome (α : Type) where
  | returned (a : α)
  | aborted
  deriving DecidableEq, Repr

/-- Modelled from the spec: running the native closure with no unwind
boundary.  A trap escapes as an uncontrolled abort. -/
def run_native_unprotected {R : Type} : NativeOutcome R → ProcessOutcome (Except String R)
  | NativeOutcome.ok r => ProcessOutcome.returned (Except.ok r)
  | NativeOutcome.err m => ProcessOutcome.returned (Except.error m)
  | NativeOutcome.trap => ProcessOutcome.aborted

/-- Modelled from the spec: the unwind boundary around native invocation
inside `contextual_call` (the implementation is outside the source
files; the trait only records the `UnwindSafe` bound).  A caught fault
and a returned error are both normalised into the typed error
`ExecutionFailed`; a returned value becomes a native result. -/
def catch_native_unwind {R : Type} (nc : NativeOutcome R) :
    Except BlockchainError (NativeOrEncoded R) :=
  match run_native_unprotected nc with
  | ProcessOutcome.returned (Except.ok r) => Except.ok (NativeOrEncoded.native r)
  | ProcessOutcome.returned (Except.error m) =>
      Except.error (BlockchainError.Execution (ExecutionError.ExecutionFailed m))
  | ProcessOutcome.aborted =>
      Except.error (BlockchainError.Execution
        (ExecutionError.ExecutionFailed "native panicked"))

/-- The result type a reconciliation function operates on. -/
abbrev ExecResult (R : Type) := Except BlockchainError (NativeOrEncoded R)

/-- Modelled from the spec: the execution strategy, one of NativeOnly,
InterpretedOnly, NativeElseInterpreted, or Both carrying a
reconciliation function (the `EM` closure bound of `contextual_call`:
a function of the native and interpreted results). -/
inductive ExecutionStrategyModel (R : Type) where
  | NativeOnly
  | InterpretedOnly
  | NativeElseInterpreted
  | Both (reconcile : ExecResult R → ExecResult R → ExecResult R)

/-- Modelled from the spec: a contextual call under strategy `Both`.  The
interpreted run's result is given; the native closure is run under the
unwind boundary and its (normalised) result is passed together with the
interpreted result to the reconciliation function, whose output is what
the call returns.  The call as a whole always returns: no fault of the
native closure escapes it. -/
def contextual_call_both {R : Type}
    (reconcile : ExecResult R → ExecResult R → ExecResult R)
    (native : NativeOutcome R) (interpreted : ExecResult R) :
    ProcessOutcome (ExecResult R) :=
  ProcessOutcome.returned (reconcile (catch_native_unwind native) interpreted)

/-- C3: under strategy `Both`, a trap inside the native implementation is
caught at the unwind boundary and surfaced as the typed error
`ExecutionFailed` (that error, and no other, is what reconciliation
receives as the native result), while running the same closure without
the boundary would abort; and no contextual call under `Both` ever
aborts the calling process, whatever the native closure does. -/
theorem contextual_call_both_traps_execution_failed {R : Type}
    (reconcile : ExecResult R → ExecResult R → ExecResult R)
    (interpreted : ExecResult R) :
    contextual_call_both reconcile NativeOutcome.trap interpreted =
      ProcessOutcome.returned (reconcile
        (Except.error (BlockchainError.Execution
          (ExecutionError.ExecutionFailed "native panicked"))) interpreted)
    ∧ run_native_unprotected (NativeOutcome.trap : NativeOutcome R) =
        ProcessOutcome.aborted
    ∧ ∀ native : NativeOutcome R,
        contextual_call_both reconcile native interpreted ≠ ProcessOutcome.aborted := by
  refine ⟨rfl, rfl, fun native h => ?_⟩
  simp [contextual_call_both] at h

/-- Modelled from the spec: two independent runs of the reconciliation
step of a strategy, on the same pair of native/interpreted results.
For a strategy other than `Both` no reconciliation happens. -/
def reconcile_with {R : Type} (s : ExecutionStrategyModel R)
    (native_result interpreted_result : ExecResult R) : Option (ExecResult R) :=
  match s with
  | ExecutionStrategyModel.Both reconcile =>
      some (reconcile native_result interpreted_result)
  | _ => none

/-- Modelled from the spec: the pair of outputs of two runs of the
reconciliation carried by a strategy, with identical inputs both times. -/
def reconcile_twice {R : Type} (s : ExecutionStrategyModel R)
    (native_result interpreted_result : ExecResult R) :
    Option (ExecResult R) × Option (ExecResult R) :=
  (reconcile_with s native_result interpreted_result,
   reconcile_with s native_result interpreted_result)

/-- C4: the reconciliation carried by `Both` is deterministic: two runs on
identical native and interpreted results produce identical reconciled
outputs (in this embedding the reconcile closure is a pure function, as
demanded by the spec's side-effect-freedom requirement on the `EM`
bound). -/
theorem reconcile_twice_deterministic {R : Type} (s : ExecutionStrategyModel R)
    (native_result interpreted_result : ExecResult R) :
    (reconcile_twice s native_result interpreted_result).1 =
      (reconcile_twice s native_result interpreted_result).2 := rfl

/-- A read-only state view: the key-value content of the ledger state at a
block, as an association list. -/
abbrev StateView := List (StorageKey × Bytes)

/-- Record a pending write in an overlay: the new entry shadows any older
entry for the same key. -/
def ov_set (ov : OverlayMap) (k : StorageKey) (v : Option Bytes) : OverlayMap :=
  (k, v) :: ov.filter (fun p => p.1 ≠ k)

/-- Look a key up in an overlay: `some w` when the overlay holds a pending
write (or deletion) `w` for the key, `none` when the key is untouched. -/
def ov_get (ov : OverlayMap) (k : StorageKey) : Option (Option Bytes) :=
  (ov.find? (fun p => p.1 = k)).map Prod.snd

/-- A sequence of writes performed during one method execution, in order. -/
abbrev WriteList := List (StorageKey × Option Bytes)

/-- Apply a sequence of writes to an overlay, in order. -/
def apply_writes (ov : OverlayMap) (ws : WriteList) : OverlayMap :=
  ws.foldl (fun acc p => ov_set acc p.1 p.2) ov

theorem ov_get_set_same (ov : OverlayMap) (k : StorageKey) (v : Option Bytes) :
    ov_get (ov_set ov k v) k = some v := by
  simp [ov_get, ov_set, List.find?]

theorem find?_filter_ne (l : OverlayMap) (k j : StorageKey) (hne : j ≠ k) :
    (l.filter (fun p => p.1 ≠ k)).find? (fun p => p.1 = j) =
      l.find? (fun p => p.1 = j) := by
  induction l with
  | nil => rfl
  | cons p l ih =>
      by_cases hpk : p.1 = k
      · have hpj : p.1 ≠ j := by rw [hpk]; exact Ne.symm hne
        rw [List.filter_cons_of_neg (by simpa using hpk),
          List.find?_cons_of_neg _ (by simpa using hpj)]
        exact ih
      · rw [List.filter_cons_of_pos (by simpa using hpk)]
        by_cases hpj : p.1 = j
        · rw [List.find?_cons_of_pos _ (by simpa using hpj),
            List.find?_cons_of_pos _ (by simpa using hpj)]
        · rw [List.find?_cons_of_neg _ (by simpa using hpj),
            List.find?_cons_of_neg _ (by simpa using hpj)]
          exact ih

theorem ov_get_set_other (ov : OverlayMap) (k j : StorageKey) (v : Option Bytes)
    (hne : j ≠ k) : ov_get (ov_set ov k v) j = ov_get ov j := by
  unfold ov_get ov_set
  rw [List.find?_cons_of_neg _ (by simpa using Ne.symm hne),
    find?_filter_ne ov k j hne]

theorem ov_get_apply_writes_not_written (ov : OverlayMap) (ws : WriteList)
    (k : StorageKey) (h : k ∉ ws.map Prod.fst) :
    ov_get (apply_writes ov ws) k = ov_get ov k := by
  induction ws generalizing ov with
  | nil => rfl
  | cons w ws ih =>
      simp only [List.map, List.mem_cons, not_or] at h
      simp only [apply_writes, List.foldl]
      rw [show (ws.foldl (fun acc p => ov_set acc p.1 p.2) (ov_set ov w.1 w.2)) =
        apply_writes (ov_set ov w.1 w.2) ws from rfl]
      rw [ih (ov_set ov w.1 w.2) h.2, ov_get_set_other ov w.1 k w.2 h.1]

theorem apply_writes_append (ov : OverlayMap) (ws1 ws2 : WriteList) :
    apply_writes ov (ws1 ++ ws2) = apply_writes (apply_writes ov ws1) ws2 := by
  simp [apply_writes, List.foldl_append]

/-- The last write to a key determines its pending value in the overlay
after applying a write sequence. -/
theorem ov_get_apply_writes_last (ov : OverlayMap) (ws1 ws2 : WriteList)
    (k : StorageKey) (v : Option Bytes) (h : k ∉ ws2.map Prod.fst) :
    ov_get (apply_writes ov (ws1 ++ (k, v) :: ws2)) k = some v := by
  rw [show ws1 ++ (k, v) :: ws2 = (ws1 ++ [(k, v)]) ++ ws2 by simp,
    apply_writes_append, ov_get_apply_writes_not_written _ ws2 k h,
    apply_writes_append]
  exact ov_get_set_same (apply_writes ov ws1) k v

/-- Modelled from the spec: one runtime method execution, abstracted as a
function of the state view and the overlay it reads through, producing
the call's result (encoded bytes or a typed error) and the ordered list
of storage writes it performs. -/
abbrev MethodRun := StateView → OverlayMap → Except BlockchainError Bytes × WriteList

/-- Modelled from the spec: `contextual_call`'s effect on state.  The
writes performed by the method execution are applied to the
caller-supplied overlay (`changes`), which is returned updated together
with the result; the underlying state view is returned untouched. -/
def contextual_call_model (run : MethodRun) (state : StateView) (changes : OverlayMap) :
    Except BlockchainError Bytes × OverlayMap × StateView :=
  let out := run state changes
  (out.1, apply_writes changes out.2, state)

/-- C5: `contextual_call` frames its effects inside the caller-supplied
overlay: the underlying state view is unchanged; every key the method
wrote retains (in the returned overlay) the value of its last write;
and keys the method did not write keep exactly the pending value they
had in the supplied overlay.  The writes are thus retained in the
caller's overlay after the call returns, and nothing else is modified. -/
theorem contextual_call_model_frame (run : MethodRun) (state : StateView)
    (changes : OverlayMap) :
    (contextual_call_model run state changes).2.2 = state
    ∧ (∀ ws1 k v ws2, (run state changes).2 = ws1 ++ (k, v) :: ws2 →
        k ∉ ws2.map Prod.fst →
        ov_get (contextual_call_model run state changes).2.1 k = some v)
    ∧ (∀ k, k ∉ ((run state changes).2).map Prod.fst →
        ov_get (contextual_call_model run state changes).2.1 k = ov_get changes k) := by
  refine ⟨rfl, fun ws1 k v ws2 heq hlast => ?_, fun k hk => ?_⟩
  · show ov_get (apply_writes changes (run state changes).2) k = some v
    rw [heq]
    exact ov_get_apply_writes_last changes ws1 ws2 k v hlast
  · exact ov_get_apply_writes_not_written changes (run state changes).2 k hk

/-- A concrete method run used to witness C5: it writes key `[1]` twice
(last value `[3]`) and writes nothing else. -/
def run_c5_example : MethodRun :=
  fun _ _ => (Except.ok [7], [([1], some [2]), ([1], some [3])])

/-- Witness for C5: on the concrete run, the state view comes back
unchanged, the twice-written key holds its last written value in the
returned overlay, and an untouched key keeps its prior pending value. -/
theorem contextual_call_model_frame_witness :
    (contextual_call_model run_c5_example [([9], [9])] [([4], some [5])]).2.2 =
      [([9], [9])]
    ∧ ov_get (contextual_call_model run_c5_example [([9], [9])]
        [([4], some [5])]).2.1 [1] = some (some [3])
    ∧ ov_get (contextual_call_model run_c5_example [([9], [9])]
        [([4], some [5])]).2.1 [4] = ov_get [([4], some [5])] [4] :=
  ⟨(contextual_call_model_frame run_c5_example [([9], [9])] [([4], some [5])]).1,
   (contextual_call_model_frame run_c5_example [([9], [9])] [([4], some [5])]).2.1
     [([1], some [2])] [1] (some [3]) [] rfl (by decide),
   (contextual_call_model_frame run_c5_example [([9], [9])] [([4], some [5])]).2.2
     [4] (by decide)⟩

/-- Modelled from the spec: `CallExecutor::call`.  A fresh, empty overlay
is created for the call; the method runs against the state view through
that overlay; the overlay (with whatever the method wrote into it) is
then discarded, and only the encoded result bytes (or a typed error)
are produced together with the untouched state view. -/
def call_model (run : MethodRun) (state : StateView) :
    Except BlockchainError Bytes × StateView :=
  let fresh_overlay : OverlayMap := []
  let out := run state fresh_overlay
  (out.1, state)

/-- C6: `call` persists no write: the underlying state view after the call
is exactly the state view before it, the internal overlay (seeded
empty) is discarded rather than returned, and the produced value is
exactly the execution's result bytes or typed error. -/
theorem call_model_no_write_persists (run : MethodRun) (state : StateView) :
    (call_model run state).2 = state
    ∧ (call_model run state).1 = (run state []).1 := ⟨rfl, rfl⟩

/-- Modelled from the spec: insertion into the in-progress proof set of
the Proof-Recording State View.  On a node fetch the node's raw bytes
are inserted keyed by node hash; the insertion is idempotent — when an
entry with the node's hash is already present the proof set is left
unchanged. -/
def record_node (node_hash : Bytes → Nat) (proof : List (Nat × Bytes)) (node : Bytes) :
    List (Nat × Bytes) :=
  if proof.any (fun p => p.1 = node_hash node) then proof
  else proof ++ [(node_hash node, node)]

/-- Modelled from the spec: the proof accumulated over one recorded
execution, from the sequence of trie nodes fetched (in fetch order),
starting from an empty proof set. -/
def record_trace (node_hash : Bytes → Nat) (trace : List Bytes) : List (Nat × Bytes) :=
  trace.foldl (record_node node_hash) []

/-- How many entries of a proof set carry a given hash key. -/
def count_key (proof : List (Nat × Bytes)) (h : Nat) : Nat :=
  (proof.filter (fun p => p.1 = h)).length

theorem count_key_append (pr1 pr2 : List (Nat × Bytes)) (h : Nat) :
    count_key (pr1 ++ pr2) h = count_key pr1 h + count_key pr2 h := by
  simp [count_key, List.filter_append]

theorem count_key_pos_of_any (pr : List (Nat × Bytes)) (h : Nat)
    (ha : pr.any (fun p => p.1 = h) = true) : 1 ≤ count_key pr h := by
  rcases List.any_eq_true.mp ha with ⟨p, hp, hph⟩
  have : p ∈ pr.filter (fun q => q.1 = h) := List.mem_filter.mpr ⟨hp, hph⟩
  have := List.length_pos.mpr (List.ne_nil_of_mem this)
  simpa [count_key] using this

theorem count_key_record_node_le (node_hash : Bytes → Nat) (pr : List (Nat × Bytes))
    (node : Bytes) (h : Nat) (hle : count_key pr h ≤ 1) :
    count_key (record_node node_hash pr node) h ≤ 1 := by
  unfold record_node
  by_cases ha : pr.any (fun p => p.1 = node_hash node) = true
  · simpa [ha] using hle
  · rw [if_neg (by simpa using ha), count_key_append]
    by_cases hh : node_hash node = h
    · have hz : count_key pr h = 0 := by
        by_contra hnz
        have : 1 ≤ count_key pr h := Nat.one_le_iff_ne_zero.mpr hnz
        rcases (pr.filter (fun p => p.1 = h)).exists_mem_of_length_pos
          (by simpa [count_key] using this) with ⟨p, hp⟩
        have := List.mem_filter.mp hp
        exact ha (List.any_eq_true.mpr ⟨p, this.1, by
          simp only [hh]
          exact this.2⟩)
      have h1 : count_key [(node_hash node, node)] h = 1 := by
        simp [count_key, hh]
      rw [hz, h1]
    · simpa [count_key, hh] using hle

theorem count_key_record_node_mono (node_hash : Bytes → Nat) (pr : List (Nat × Bytes))
    (node : Bytes) (h : Nat) :
    count_key pr h ≤ count_key (record_node node_hash pr node) h := by
  unfold record_node
  by_cases ha : pr.any (fun p => p.1 = node_hash node) = true
  · simp [ha]
  · rw [if_neg (by simpa using ha), count_key_append]
    exact Nat.le_add_right _ _

theorem count_key_record_node_self (node_hash : Bytes → Nat) (pr : List (Nat × Bytes))
    (node : Bytes) :
    1 ≤ count_key (record_node node_hash pr node) (node_hash node) := by
  unfold record_node
  by_cases ha : pr.any (fun p => p.1 = node_hash node) = true
  · rw [if_pos ha]
    exact count_key_pos_of_any pr (node_hash node) ha
  · rw [if_neg (by simpa using ha), count_key_append]
    have : count_key [(node_hash node, node)] (node_hash node) = 1 := by
      simp [count_key]
    omega

theorem count_key_foldl_le (node_hash : Bytes → Nat) (trace : List Bytes)
    (pr : List (Nat × Bytes)) (h : Nat) (hle : count_key pr h ≤ 1) :
    count_key (trace.foldl (record_node node_hash) pr) h ≤ 1 := by
  induction trace generalizing pr with
  | nil => exact hle
  | cons n trace ih =>
      exact ih (record_node node_hash pr n)
        (count_key_record_node_le node_hash pr n h hle)

theorem count_key_foldl_mono (node_hash : Bytes → Nat) (trace : List Bytes)
    (pr : List (Nat × Bytes)) (h : Nat) :
    count_key pr h ≤ count_key (trace.foldl (record_node node_hash) pr) h := by
  induction trace generalizing pr with
  | nil => exact Nat.le_refl _
  | cons n trace ih =>
      exact Nat.le_trans (count_key_record_node_mono node_hash pr n h)
        (ih (record_node node_hash pr n))

theorem count_key_foldl_mem (node_hash : Bytes → Nat) (trace : List Bytes)
    (pr : List (Nat × Bytes)) (node : Bytes) (hmem : node ∈ trace) :
    1 ≤ count_key (trace.foldl (record_node node_hash) pr) (node_hash node) := by
  induction trace generalizing pr with
  | nil => cases hmem
  | cons n trace ih =>
      rcases List.mem_cons.mp hmem with heq | htail
      · subst heq
        exact Nat.le_trans (count_key_record_node_self node_hash pr node)
          (count_key_foldl_mono node_hash trace (record_node node_hash pr node)
            (node_hash node))
      · exact ih (record_node node_hash pr n) htail

/-- C7: a node fetched during a recorded execution contributes exactly one
entry to the returned proof, keyed by its hash, however many times it
is fetched: insertion into the proof set is idempotent. -/
theorem record_trace_node_exactly_once (node_hash : Bytes → Nat) (trace : List Bytes)
    (node : Bytes) (hmem : node ∈ trace) :
    count_key (record_trace node_hash trace) (node_hash node) = 1 :=
  Nat.le_antisymm
    (count_key_foldl_le node_hash trace [] (node_hash node) (by simp [count_key]))
    (count_key_foldl_mem node_hash trace [] node hmem)

/-- Witness for C7: a trace that fetches the node `[1]` twice (revisiting
it around a fetch of `[2]`) yields a proof holding that node's hash
exactly once. -/
theorem record_trace_node_exactly_once_witness :
    ([1] : Bytes) ∈ [([1] : Bytes), [2], [1]]
    ∧ count_key (record_trace (fun b => b.foldl Nat.add 0) [[1], [2], [1]])
        ((fun b : Bytes => b.foldl Nat.add 0) [1]) = 1 :=
  ⟨by decide, record_trace_node_exactly_once (fun b => b.foldl Nat.add 0)
    [[1], [2], [1]] [1] (by decide)⟩

/-- Insert into an association-list model of a `HashMap`: the new binding
replaces any existing binding for the same key. -/
def map_insert {α β : Type} [DecidableEq α] (m : List (α × β)) (k : α) (v : β) :
    List (α × β) :=
  (k, v) :: m.filter (fun p => p.1 ≠ k)

/-- Look a key up in an association-list model of a `HashMap`. -/
def map_get {α β : Type} [DecidableEq α] (m : List (α × β)) (k : α) : Option β :=
  (m.find? (fun p => p.1 = k)).map Prod.snd

/-- The genesis parameters of the test-client builder
(src/test/utils/runtime/client/src/lib.rs): changes-trie support flag,
optional heap-pages override, extra top-level genesis storage, and
per-storage-key extra child genesis storage. -/
structure GenesisParameters where
  support_changes_trie : Bool
  heap_pages_override : Option Nat
  extra_storage : List (Bytes × Bytes)
  child_extra_storage : List (Bytes × List (Bytes × Bytes))

/-- The test-client builder as far as the build and genesis-extension
paths use it: its genesis parameters, its backend, and the underlying
generic build operation `build_with_native_executor` (defined outside
the source files), of which all three build paths are wrappers. -/
structure TestClientBuilderModel (Client LongestChain Backend : Type) where
  genesis_init : GenesisParameters
  backend : Backend
  build_with_native_executor : Option Unit → Client × LongestChain

/-- `TestClientBuilderExt::add_extra_storage`: assert the key is
non-empty (an empty key panics, modelled as `none`), then insert the
key/value pair into the builder's extra genesis storage. -/
def add_extra_storage {C L B : Type} (b : TestClientBuilderModel C L B)
    (key value : Bytes) : Option (TestClientBuilderModel C L B) :=
  if key = [] then none
  else some { b with genesis_init := { b.genesis_init with
    extra_storage := map_insert b.genesis_init.extra_storage key value } }

/-- `TestClientBuilderExt::add_extra_child_storage`: assert the storage
key and the key are both non-empty (either empty panics, modelled as
`none`), then insert the key/value pair into the child map found (or
freshly created) under the storage key. -/
def add_extra_child_storage {C L B : Type} (b : TestClientBuilderModel C L B)
    (storage_key key value : Bytes) : Option (TestClientBuilderModel C L B) :=
  if storage_key = [] then none
  else if key = [] then none
  else
    let child := (map_get b.genesis_init.child_extra_storage storage_key).getD []
    some { b with genesis_init := { b.genesis_init with
      child_extra_storage := map_insert b.genesis_init.child_extra_storage
        storage_key (map_insert child key value) } }

/-- C8: with non-empty keys both assertions pass — the panic branch is
unreachable — and the pair is inserted into the corresponding genesis
map (`extra_storage`, or the child map under the storage key); an empty
key (either of them, for the child variant) trips the assertion. -/
theorem add_extra_storage_nonempty_keys {C L B : Type}
    (b : TestClientBuilderModel C L B) (storage_key key value : Bytes)
    (hsk : storage_key ≠ []) (hk : key ≠ []) :
    add_extra_storage b key value = some { b with genesis_init :=
      { b.genesis_init with
        extra_storage := map_insert b.genesis_init.extra_storage key value } }
    ∧ add_extra_child_storage b storage_key key value = some { b with genesis_init :=
      { b.genesis_init with
        child_extra_storage := map_insert b.genesis_init.child_extra_storage
          storage_key (map_insert
            ((map_get b.genesis_init.child_extra_storage storage_key).getD [])
            key value) } }
    ∧ add_extra_storage b [] value = none
    ∧ add_extra_child_storage b [] key value = none
    ∧ add_extra_child_storage b storage_key [] value = none := by
  refine ⟨?_, ?_, rfl, rfl, ?_⟩
  · rw [add_extra_storage, if_neg hk]
  · rw [add_extra_child_storage, if_neg hsk, if_neg hk]
  · rw [add_extra_child_storage, if_neg hsk, if_pos rfl]

/-- A concrete builder used to witness C8 and C9. -/
def builder_example : TestClientBuilderModel Nat Nat Nat :=
  { genesis_init :=
      { support_changes_trie := false
        heap_pages_override := none
        extra_storage := []
        child_extra_storage := [] }
    backend := 5
    build_with_native_executor := fun _ => (3, 4) }

/-- Witness for C8: on a concrete builder with non-empty keys, both
insertions succeed and land in the corresponding genesis maps. -/
theorem add_extra_storage_nonempty_keys_witness :
    add_extra_storage builder_example [1] [2] = some { builder_example with
      genesis_init := { builder_example.genesis_init with
        extra_storage := map_insert builder_example.genesis_init.extra_storage
          [1] [2] } }
    ∧ add_extra_child_storage builder_example [3] [1] [2] =
      some { builder_example with
        genesis_init := { builder_example.genesis_init with
          child_extra_storage := map_insert
            builder_example.genesis_init.child_extra_storage [3]
            (map_insert
              ((map_get builder_example.genesis_init.child_extra_storage [3]).getD [])
              [1] [2]) } } :=
  ⟨(add_extra_storage_nonempty_keys builder_example [3] [1] [2]
      (by decide) (by decide)).1,
   (add_extra_storage_nonempty_keys builder_example [3] [1] [2]
      (by decide) (by decide)).2.1⟩

/-- `TestClientBuilderExt::build_with_longest_chain` as implemented for
the local-executor builder: delegate to `build_with_native_executor`
with no native-execution override. -/
def build_with_longest_chain {C L B : Type} (b : TestClientBuilderModel C L B) :
    C × L :=
  b.build_with_native_executor none

/-- The default `TestClientBuilderExt::build`: the client component of
`build_with_longest_chain`. -/
def build {C L B : Type} (b : TestClientBuilderModel C L B) : C :=
  (build_with_longest_chain b).1

/-- `TestClientBuilderExt::build_with_backend`: the client component of
`build_with_native_executor(None)` paired with the builder's backend. -/
def build_with_backend {C L B : Type} (b : TestClientBuilderModel C L B) : C × B :=
  let backend := b.backend
  ((b.build_with_native_executor none).1, backend)

/-- C9: all three build paths construct the same client: `build` is
exactly the client component of `build_with_longest_chain`, and
`build_with_backend` pairs that same client with the builder's
backend. -/
theorem build_paths_same_client {C L B : Type} (b : TestClientBuilderModel C L B) :
    build b = (build_with_longest_chain b).1
    ∧ build_with_backend b = (build b, b.backend)
    ∧ (build_with_backend b).1 = (build_with_longest_chain b).1 :=
  ⟨rfl, rfl, rfl⟩

/-- An already-resolved future (`futures::future::Ready`): it carries its
value immediately. -/
structure ReadyFuture (α : Type) where
  value : α
  deriving DecidableEq, Repr

/-- The test light-client fetcher
(src/test/utils/runtime/client/src/lib.rs): optional callbacks for
remote call requests and remote body requests.  The request and
extrinsic types come from the (external) client library and are type
parameters here. -/
structure LightFetcher (CallReq BodyReq Extrinsic : Type) where
  call : Option (CallReq → Except BlockchainError Bytes)
  body : Option (BodyReq → Except BlockchainError (List Extrinsic))

/-- `LightFetcher::with_remote_call`: replace the call callback, keep the
body callback. -/
def with_remote_call {CR BR E : Type} (f : LightFetcher CR BR E)
    (call : Option (CR → Except BlockchainError Bytes)) : LightFetcher CR BR E :=
  { call := call, body := f.body }

/-- `LightFetcher::with_remote_body`: replace the body callback, keep the
call callback. -/
def with_remote_body {CR BR E : Type} (f : LightFetcher CR BR E)
    (body : Option (BR → Except BlockchainError (List E))) : LightFetcher CR BR E :=
  { call := f.call, body := body }

/-- `Fetcher::remote_call` for `LightFetcher`: with a call callback
installed, an already-ready future of the callback's result on the
request; with none installed the source panics (`unimplemented!`),
modelled as `none`. -/
def remote_call {CR BR E : Type} (f : LightFetcher CR BR E) (req : CR) :
    Option (ReadyFuture (Except BlockchainError Bytes)) :=
  match f.call with
  | some call => some ⟨call req⟩
  | none => none

/-- C10: after installing a call callback via `with_remote_call`,
`remote_call` returns an already-ready future holding exactly the
callback's result on the request; `with_remote_call` leaves the body
callback unchanged, and `with_remote_body` leaves the call callback
unchanged. -/
theorem remote_call_installed_callback {CR BR E : Type} (f : LightFetcher CR BR E)
    (cb : CR → Except BlockchainError Bytes) (req : CR)
    (oc : Option (CR → Except BlockchainError Bytes))
    (ob : Option (BR → Except BlockchainError (List E))) :
    remote_call (with_remote_call f (some cb)) req = some ⟨cb req⟩
    ∧ (with_remote_call f oc).body = f.body
    ∧ (with_remote_body f ob).call = f.call :=
  ⟨rfl, rfl, rfl⟩

end Substrate
